import Mathlib

/-!
# subhub: a WebSub hub (subscription store, intent verification, fan-out)

A shallow embedding of `src/hub/db.go`, `src/hub/hub.go` and `src/hub/utils.go`.

Modelling conventions.

* Go strings and byte slices holding text are Lean `String`s, that is, valid
  UTF-8; raw bytes (random buffers, digests) are lists of `Fin 256`.
* The Postgres table `subscription` is the list of its rows.  The surrogate
  column `id` is never read or written by any statement of the program and is
  left out.  The declared column types are kept: a stored text value is a
  `VARCHAR(128)`, a string of at most 128 characters without the character
  U+0000, `timestamp` is a nullable `BIGINT`, and `UNIQUE (subscriber, topic)`
  is a predicate on the list.
* A text parameter that contains U+0000 is refused by the server whatever the
  statement (SQLSTATE 22021).  Assignment of a value of more than 128
  characters to a `VARCHAR(128)` column is an error (SQLSTATE 22001) unless the
  excess is spaces only, in which case the value is cut to 128 characters.
* A statement error makes the Go code print the error and call `os.Exit(1)`;
  the table itself is untouched by the failed statement.
* `http.NewRequest` returns a nil request for a callback that `net/url` cannot
  parse; `sendGET` discards the error and dereferences the request, so the
  process dies of a nil pointer panic before anything is sent.
* Everything that the program obtains from outside is an explicit argument:
  the bytes delivered by `crypto/rand`, the parser of `net/url` (which strings
  parse), the HTTP peers (functions from the request to an optional response,
  `none` being an error of `client.Do`), the HMAC-SHA256 function of the Go
  standard library, the clock and the advice text.  The database server is
  assumed reachable.
* Goroutines started with `go` are returned as a list of tasks; running a task
  is a function on the process state.  Every task touches the store through at
  most one atomic statement, so an interleaving of tasks is an order of tasks.
-/

namespace SubHub

/-! ## Data model -/

/-- A byte of a Go byte slice. -/
abbrev Byte := Fin 256

/-- Whether the server accepts a string as a text parameter: it holds no
character U+0000. -/
def pgText (s : String) : Bool :=
  s.data.all fun c => c != Char.ofNat 0

/-- The maximal length of the three text columns. -/
def varcharLimit : Nat := 128

/-- Whether a string is a value of type `VARCHAR(128)`. -/
def fits128 (s : String) : Bool :=
  pgText s && decide (s.data.length ≤ varcharLimit)

/-- A stored value of a `VARCHAR(128) NOT NULL` column. -/
abbrev Varchar128 := { s : String // fits128 s = true }

/-- One row of table `subscription` (`db.go`, `init`): `subscriber`, `secret`
and `topic` are `VARCHAR(128) NOT NULL`, `timestamp` is a nullable `BIGINT`. -/
structure Row where
  subscriber : Varchar128
  secret : Varchar128
  topic : Varchar128
  timestamp : Option Int
deriving DecidableEq, Repr

/-- The content of table `subscription` held behind `hubStore.store`. -/
abbrev hubStore := List Row

/-- A single subscriber instance (`hub.go`, `type subscription`). -/
structure subscription where
  subscriber : String
  secret : String
  topic : String
deriving DecidableEq, Repr

/-- Process state: the table, the lines printed on standard output, and
whether the process has ended (`os.Exit(1)` or a panic). -/
structure State where
  store : hubStore
  stdout : List String
  exited : Bool
deriving DecidableEq, Repr

/-- HTTP status constants used by the hub. -/
def StatusOK : Int := 200
/-- HTTP 202. -/
def StatusAccepted : Int := 202
/-- HTTP 400. -/
def StatusBadRequest : Int := 400
/-- HTTP 404. -/
def StatusNotFound : Int := 404

/-! ## The subscription table (`db.go`) -/

/-- Assignment of an accepted text parameter to a `VARCHAR(128)` column: a value
of at most 128 characters is stored as it is, a longer one whose excess
characters are all spaces is cut to 128 characters, any other value is
rejected. -/
def varchar128 (s : String) : Option Varchar128 :=
  if h : fits128 s = true then some ⟨s, h⟩
  else if h2 : fits128 (String.mk (s.data.take varcharLimit)) = true then
    if (s.data.drop varcharLimit).all (fun c => c == ' ') then
      some ⟨String.mk (s.data.take varcharLimit), h2⟩
    else none
  else none

/-- SQL comparison `a > b` as used in a `CASE WHEN`: a comparison with NULL is
not true. -/
def sqlGt : Option Int → Option Int → Bool
  | some a, some b => decide (b < a)
  | _, _ => false

/-- The `DO UPDATE SET` clause of `addSubscriber`: both `CASE` expressions read
the existing row (`subscription`) and the proposed row (`EXCLUDED`). -/
def onConflict (existing excluded : Row) : Row :=
  { existing with
    timestamp :=
      if sqlGt excluded.timestamp existing.timestamp then excluded.timestamp
      else existing.timestamp
    topic :=
      if sqlGt excluded.timestamp existing.timestamp then excluded.topic
      else existing.topic }

/-- The arbiter of `ON CONFLICT (subscriber, topic)`. -/
def conflicts (excluded r : Row) : Bool :=
  r.subscriber == excluded.subscriber && r.topic == excluded.topic

/-- The effect of `INSERT ... ON CONFLICT (subscriber, topic) DO UPDATE SET ...`
for the proposed row `excluded`: the conflicting row is updated, and without a
conflict the proposed row is inserted. -/
def upsert (db : hubStore) (excluded : Row) : hubStore :=
  if db.any (conflicts excluded) then
    db.map fun r => if conflicts excluded r then onConflict r excluded else r
  else db ++ [excluded]

/-- The error text of a text parameter that holds U+0000. -/
def invalidByte : String :=
  "ERROR: invalid byte sequence for encoding \"UTF8\": 0x00 (SQLSTATE 22021)"

/-- The error text of a value that does not fit its column. -/
def valueTooLong : String :=
  "ERROR: value too long for type character varying(128) (SQLSTATE 22001)"

/-- The statement of `hubStore.addSubscriber`:
`INSERT INTO subscription (subscriber, secret, topic, timestamp) VALUES ($1, $2, $3, $4)
ON CONFLICT (subscriber, topic) DO UPDATE SET ...`.
The result is the new content of the table, or the error of the statement. -/
def addSubscriber (db : hubStore) (callback secret topic : String) (timestamp : Int) :
    Except String hubStore :=
  if pgText callback && pgText secret && pgText topic then
    match varchar128 callback, varchar128 secret, varchar128 topic with
    | some sub, some sec, some top => Except.ok (upsert db ⟨sub, sec, top, some timestamp⟩)
    | _, _, _ => Except.error valueTooLong
  else Except.error invalidByte

/-- The statement of `hubStore.removeSubscriber`:
`DELETE FROM subscription WHERE subscriber=$1 AND topic=$2`.
The result is the new content of the table, or the error of the statement. -/
def removeSubscriber (db : hubStore) (callback topic : String) : Except String hubStore :=
  if pgText callback && pgText topic then
    Except.ok (db.filter fun r => !(r.subscriber.val == callback && r.topic.val == topic))
  else Except.error invalidByte

/-- The query of `hubStore.getAllSubsByTopic`:
`SELECT subscriber, secret, topic FROM subscription WHERE topic=$1`. -/
def getAllSubsByTopic (db : hubStore) (topic : String) : List subscription :=
  (db.filter fun r => r.topic.val == topic).map fun r =>
    ⟨r.subscriber.val, r.secret.val, r.topic.val⟩

/-- The error branch shared by the store methods: print the error, exit. -/
def fatal (st : State) (err : String) : State :=
  { st with stdout := st.stdout ++ [err], exited := true }

/-- A run-time panic: the process ends, nothing is printed on standard output. -/
def crash (st : State) : State :=
  { st with exited := true }

/-- Method `addSubscriber` on the process state; `rest` is what the caller does
after the method has returned, which it does not after `os.Exit(1)`. -/
def State.addSubscriber (st : State) (callback secret topic : String) (timestamp : Int)
    (rest : State → State) : State :=
  match SubHub.addSubscriber st.store callback secret topic timestamp with
  | Except.ok db => rest { st with store := db }
  | Except.error err => fatal st err

/-- Method `removeSubscriber` on the process state; `rest` is what the caller
does after the method has returned, which it does not after `os.Exit(1)`. -/
def State.removeSubscriber (st : State) (callback topic : String)
    (rest : State → State) : State :=
  match SubHub.removeSubscriber st.store callback topic with
  | Except.ok db => rest { st with store := db }
  | Except.error err => fatal st err

/-- Go `fmt.Println` of one line. -/
def println (st : State) (line : String) : State :=
  { st with stdout := st.stdout ++ [line] }

/-! ## Utilities (`utils.go`) -/

/-- The digit table of `encoding/hex`. -/
def hextable : List Char :=
  ['0', '1', '2', '3', '4', '5', '6', '7', '8', '9', 'a', 'b', 'c', 'd', 'e', 'f']

/-- Go `hex.EncodeToString`: two digits per byte, high nibble first. -/
def EncodeToString (src : List Byte) : String :=
  String.mk (src.flatMap fun v => [hextable.getD (v.val / 16) '0', hextable.getD (v.val % 16) '0'])

/-- Function `generateChallenge`: a buffer of 64 bytes filled by the random
source, hex encoded. -/
def generateChallenge (buf : Fin 64 → Byte) : String :=
  EncodeToString (List.ofFn buf)

/-- Function `getHash`: hex encoding of the HMAC-SHA256 of `content` keyed with
`secret`; `mac key message` is the library HMAC. -/
def getHash (mac : String → String → List Byte) (content secret : String) : String :=
  EncodeToString (mac secret content)

/-! ## The hub (`hub.go`) -/

/-- An outbound GET: the callback and the query parameters added to it. -/
structure GetRequest where
  url : String
  query : List (String × String)
deriving DecidableEq, Repr

/-- An outbound POST: target, body and the headers added to it. -/
structure PostRequest where
  url : String
  body : String
  header : List (String × String)
deriving DecidableEq, Repr

/-- The request built by `sendGET` for a callback that parses; the challenge is
attached only when it is not empty. -/
def getRequest (callback mode topic challenge : String) : GetRequest :=
  { url := callback
    query := [("hub.mode", mode), ("hub.topic", topic)] ++
      (if challenge ≠ "" then [("hub.challenge", challenge)] else []) }

/-- Function `sendGET`; `parses` tells which strings `net/url` parses and
`client` is `client.Do`.  The result is `none` when the function panics on the
nil request of an unparseable callback; otherwise it is the body and status of
the response, or an empty body and status 0 when the client returns an error. -/
def sendGET (parses : String → Bool) (client : GetRequest → Option (String × Int))
    (callback mode topic challenge : String) : Option (String × Int) :=
  if parses callback then
    match client (getRequest callback mode topic challenge) with
    | none => some ("", 0)
    | some (body, statusCode) => some (body, statusCode)
  else none

/-- Method `hub.verifyIntent`. -/
def verifyIntent (st : State) (buf : Fin 64 → Byte) (parses : String → Bool)
    (client : GetRequest → Option (String × Int))
    (callback secret mode topic : String) (timestamp : Int) : State :=
  let c := generateChallenge buf
  match sendGET parses client callback mode topic c with
  | none => crash st
  | some (body, statusCode) =>
    if c ≠ body ∨ statusCode = StatusNotFound then st
    else
      let subscribe := fun st1 : State =>
        if mode = "subscribe" then
          st1.addSubscriber callback secret topic timestamp fun st2 =>
            println st2 (callback ++ " (re)subscribde to " ++ topic)
        else st1
      if mode = "unsubscribe" then
        st.removeSubscriber callback topic fun st1 =>
          subscribe (println st1 (callback ++ " unsubscribed from " ++ topic))
      else subscribe st

/-- The request built by `sendContent`. -/
def contentRequest (mac : String → String → List Byte)
    (url secret topic content : String) : PostRequest :=
  let jsonBody := "\x7b\"topic\":\"" ++ topic ++ "\", \"content\":\"" ++ content ++ "\"\x7d"
  let h := getHash mac jsonBody secret
  { url := url
    body := jsonBody
    header := [("X-Hub-Signature", "sha256=" ++ h), ("Content-Type", "application/json")] }

/-- Function `sendContent`: true exactly when the POST is answered with 200,
false on any other status and on an error of the client.  Its only caller
passes the callback of a stored subscription, that is, one that `sendGET` has
parsed and reached before; the nil request of an unparseable url is left out
here. -/
def sendContent (mac : String → String → List Byte) (client : PostRequest → Option Int)
    (url secret topic content : String) : Bool :=
  match client (contentRequest mac url secret topic content) with
  | none => false
  | some statusCode => statusCode == StatusOK

/-- A goroutine started by a handler. -/
inductive Task where
  | sendGET (callback mode topic challenge : String)
  | verifyIntent (callback secret mode topic : String) (timestamp : Int)
  | push (sub : subscription) (a : String)
deriving DecidableEq, Repr

/-- What a handler writes to its caller. -/
structure Response where
  code : Int
  text : String
deriving DecidableEq, Repr

/-- Method `hub.handleSubscriber`; `FormValue` is `ctx.FormValue` (empty for an
absent parameter) and `now` is `time.Now().Unix()`. -/
def handleSubscriber (FormValue : String → String) (now : Int) : Response × List Task :=
  let callback := FormValue "hub.callback"
  let mode := FormValue "hub.mode"
  let topic := FormValue "hub.topic"
  let secret := FormValue "hub.secret"
  let timestamp := now
  if callback = "" ∨ mode = "" ∨ topic = "" then
    (⟨StatusBadRequest, "Error: params hub.callback, hub.mode, and hub.topic required!"⟩,
      [Task.sendGET callback "denied" topic ""])
  else
    (⟨StatusAccepted, "Request accepted!"⟩,
      [Task.verifyIntent callback secret mode topic timestamp])

/-- Method `hub.dummyPublisher`; `advice` is the result of `getRandomAdvice`. -/
def dummyPublisher (st : State) (advice : String) : Response × List Task :=
  let topic := "advice"
  let subscribers := getAllSubsByTopic st.store topic
  (⟨StatusOK, "\"" ++ advice ++ "\" was sent to all subscribers of the topic \"advice\"."⟩,
    subscribers.map fun s => Task.push s advice)

/-- A set of callbacks that `net/url` parses: `http://` followed by letters,
digits, dots and slashes only.  It stands for the parser in the examples. -/
def plainURL (s : String) : Bool :=
  s.data.take 7 == ['h', 't', 't', 'p', ':', '/', '/'] &&
    (s.data.drop 7).all fun c => c.isAlphanum || c == '.' || c == '/'

/-- The outside world of one task. -/
structure Env where
  mac : String → String → List Byte
  parses : String → Bool
  get : GetRequest → Option (String × Int)
  post : PostRequest → Option Int
  rand : Fin 64 → Byte

/-- Running one goroutine to completion; nothing runs once the process has
ended.  The caller of the denial `sendGET` discards its result. -/
def runTask (env : Env) (st : State) (t : Task) : State :=
  if st.exited then st
  else
    match t with
    | Task.sendGET callback mode topic challenge =>
      match sendGET env.parses env.get callback mode topic challenge with
      | none => crash st
      | some _ => st
    | Task.verifyIntent callback secret mode topic timestamp =>
      verifyIntent st env.rand env.parses env.get callback secret mode topic timestamp
    | Task.push sub a =>
      let success := sendContent env.mac env.post sub.subscriber sub.secret sub.topic a
      if !success then st.removeSubscriber sub.subscriber sub.topic id else st

/-- Running goroutines in the order in which their store statements commit. -/
def runTasks (env : Env) (st : State) (ts : List Task) : State :=
  ts.foldl (runTask env) st

/-- Whether the completed task `t` leaves row `r` in the table: a push removes
the rows of its subscription when the delivery has failed. -/
def keeps (env : Env) (t : Task) (r : Row) : Bool :=
  match t with
  | Task.push sub a =>
    sendContent env.mac env.post sub.subscriber sub.secret sub.topic a ||
      !(r.subscriber.val == sub.subscriber && r.topic.val == sub.topic)
  | _ => true

/-- A store call. -/
inductive StoreOp where
  | add (callback secret topic : String) (timestamp : Int)
  | remove (callback topic : String)
deriving DecidableEq, Repr

/-- The table after a statement: a failed statement leaves it as it was. -/
def tableAfter (db : hubStore) : Except String hubStore → hubStore
  | Except.ok db1 => db1
  | Except.error _ => db

/-- The table after one store call. -/
def applyOp (db : hubStore) : StoreOp → hubStore
  | StoreOp.add callback secret topic timestamp =>
    tableAfter db (addSubscriber db callback secret topic timestamp)
  | StoreOp.remove callback topic => tableAfter db (removeSubscriber db callback topic)

/-- The table after a sequence of store calls on the empty table of `init`. -/
def runOps (ops : List StoreOp) : hubStore :=
  ops.foldl applyOp []

/-- The key of a row under `UNIQUE (subscriber, topic)`. -/
def rowKey (r : Row) : String × String := (r.subscriber.val, r.topic.val)

/-- The four column values of a row. -/
def Row.values (r : Row) : String × String × String × Option Int :=
  (r.subscriber.val, r.secret.val, r.topic.val, r.timestamp)

/-! # Theorems -/

set_option maxRecDepth 100000

/-! ## Lemmas on the table -/

theorem conflicts_iff (e r : Row) :
    conflicts e r = true ↔ r.subscriber = e.subscriber ∧ r.topic = e.topic := by
  simp [conflicts]

theorem onConflict_of_conflicts (e r : Row) (h : conflicts e r = true) :
    onConflict r e =
      { r with timestamp := if sqlGt e.timestamp r.timestamp then e.timestamp else r.timestamp } := by
  have ht : r.topic = e.topic := ((conflicts_iff e r).1 h).2
  unfold onConflict
  by_cases hg : sqlGt e.timestamp r.timestamp = true
  · simp [hg, ht]
  · simp [hg]

theorem rowKey_upsert (e r : Row) :
    rowKey (if conflicts e r then onConflict r e else r) = rowKey r := by
  by_cases h : conflicts e r = true
  · rw [if_pos h, onConflict_of_conflicts e r h]; rfl
  · rw [if_neg h]

theorem pgText_of_fits {s : String} (h : fits128 s = true) : pgText s = true := by
  unfold fits128 at h
  rw [Bool.and_eq_true] at h
  exact h.1

theorem varchar128_of_fits (s : String) (h : fits128 s = true) :
    varchar128 s = some ⟨s, h⟩ := by
  unfold varchar128
  rw [dif_pos h]

theorem varchar128_val (v : Varchar128) : varchar128 v.val = some v :=
  varchar128_of_fits v.val v.property

theorem pgText_of_varchar128 {s : String} {v : Varchar128} (h : varchar128 s = some v) :
    pgText s = true := by
  unfold varchar128 at h
  split_ifs at h with h1 h2 h3
  · exact pgText_of_fits h1
  · have ht := pgText_of_fits h2
    unfold pgText at ht ⊢
    rw [← List.take_append_drop varcharLimit s.data, List.all_append, Bool.and_eq_true]
    refine ⟨ht, ?_⟩
    rw [List.all_eq_true] at h3 ⊢
    intro c hc
    have := h3 c hc
    rw [beq_iff_eq] at this
    rw [this]
    decide

theorem addSubscriber_of_fits (db : hubStore) {cb sec tp : String} {sub s top : Varchar128}
    (ts : Int) (h1 : varchar128 cb = some sub) (h2 : varchar128 sec = some s)
    (h3 : varchar128 tp = some top) :
    addSubscriber db cb sec tp ts = Except.ok (upsert db ⟨sub, s, top, some ts⟩) := by
  unfold addSubscriber
  rw [pgText_of_varchar128 h1, pgText_of_varchar128 h2, pgText_of_varchar128 h3, h1, h2, h3]
  rfl

theorem addSubscriber_cases (db : hubStore) (cb sec tp : String) (ts : Int) :
    (∃ sub s top, varchar128 cb = some sub ∧ varchar128 sec = some s ∧
      varchar128 tp = some top ∧
      addSubscriber db cb sec tp ts = Except.ok (upsert db ⟨sub, s, top, some ts⟩)) ∨
    ((varchar128 cb = none ∨ varchar128 sec = none ∨ varchar128 tp = none) ∧
      (addSubscriber db cb sec tp ts = Except.error invalidByte ∨
        addSubscriber db cb sec tp ts = Except.error valueTooLong)) := by
  cases h1 : varchar128 cb with
  | none =>
    right
    refine ⟨Or.inl rfl, ?_⟩
    unfold addSubscriber
    split_ifs
    · right; rw [h1]
    · left; rfl
  | some sub =>
    cases h2 : varchar128 sec with
    | none =>
      right
      refine ⟨Or.inr (Or.inl rfl), ?_⟩
      unfold addSubscriber
      split_ifs
      · right; rw [h1, h2]
      · left; rfl
    | some s =>
      cases h3 : varchar128 tp with
      | none =>
        right
        refine ⟨Or.inr (Or.inr rfl), ?_⟩
        unfold addSubscriber
        split_ifs
        · right; rw [h1, h2, h3]
        · left; rfl
      | some top =>
        left
        exact ⟨sub, s, top, rfl, rfl, rfl, addSubscriber_of_fits db ts h1 h2 h3⟩

theorem upsert_keys_nodup (db : hubStore) (e : Row) (h : (db.map rowKey).Nodup) :
    ((upsert db e).map rowKey).Nodup := by
  unfold upsert
  split_ifs with hc
  · have : (db.map fun r => if conflicts e r then onConflict r e else r).map rowKey
        = db.map rowKey := by
      rw [List.map_map]
      apply List.map_congr_left
      intro r _
      exact rowKey_upsert e r
    rw [this]; exact h
  · rw [List.map_append, List.map_singleton]
    apply List.Nodup.append h (List.nodup_singleton _)
    rw [List.disjoint_singleton]
    intro hmem
    obtain ⟨r, hr, hk⟩ := List.mem_map.1 hmem
    apply hc
    rw [List.any_eq_true]
    refine ⟨r, hr, ?_⟩
    rw [conflicts_iff]
    simp only [rowKey, Prod.mk.injEq] at hk
    exact ⟨Subtype.ext hk.1, Subtype.ext hk.2⟩

theorem applyOp_keys_nodup (db : hubStore) (op : StoreOp) (h : (db.map rowKey).Nodup) :
    ((applyOp db op).map rowKey).Nodup := by
  cases op with
  | add cb sec tp ts =>
    show ((tableAfter db (addSubscriber db cb sec tp ts)).map rowKey).Nodup
    rcases addSubscriber_cases db cb sec tp ts with ⟨sub, s, top, -, -, -, hok⟩ | ⟨-, he | he⟩
    · rw [hok]; exact upsert_keys_nodup db _ h
    · rw [he]; exact h
    · rw [he]; exact h
  | remove cb tp =>
    show ((tableAfter db (removeSubscriber db cb tp)).map rowKey).Nodup
    unfold removeSubscriber
    split_ifs
    · exact h.sublist ((List.filter_sublist db).map rowKey)
    · exact h

theorem foldl_applyOp_keys_nodup (ops : List StoreOp) :
    ∀ db : hubStore, (db.map rowKey).Nodup → ((ops.foldl applyOp db).map rowKey).Nodup := by
  induction ops with
  | nil => intro db h; exact h
  | cons op ops ih =>
    intro db h
    rw [List.foldl_cons]
    exact ih _ (applyOp_keys_nodup db op h)

/-- Every table reached from the empty table satisfies `UNIQUE (subscriber, topic)`. -/
theorem runOps_keys_nodup (ops : List StoreOp) : ((runOps ops).map rowKey).Nodup :=
  foldl_applyOp_keys_nodup ops [] List.nodup_nil

theorem filter_key_length_le_one (db : hubStore) (h : (db.map rowKey).Nodup) (s t : String) :
    (db.filter fun r => r.subscriber.val = s ∧ r.topic.val = t).length ≤ 1 := by
  induction db with
  | nil => simp
  | cons r rest ih =>
    rw [List.map_cons, List.nodup_cons] at h
    by_cases hr : r.subscriber.val = s ∧ r.topic.val = t
    · have hnil : (rest.filter fun r => r.subscriber.val = s ∧ r.topic.val = t) = [] := by
        rw [List.filter_eq_nil_iff]
        intro x hx hxk
        apply h.1
        rw [List.mem_map]
        refine ⟨x, hx, ?_⟩
        have hxk2 : x.subscriber.val = s ∧ x.topic.val = t := by simpa using hxk
        simp [rowKey, hxk2.1, hxk2.2, hr.1, hr.2]
      rw [List.filter_cons_of_pos (by simpa using hr), List.length_cons, hnil]
      simp
    · rw [List.filter_cons_of_neg (by simpa using hr)]
      exact ih h.2

theorem eq_of_rowKey_eq {db : hubStore} (h : (db.map rowKey).Nodup) {x y : Row}
    (hx : x ∈ db) (hy : y ∈ db) (hk : rowKey x = rowKey y) : x = y :=
  List.inj_on_of_nodup_map h hx hy hk

theorem upsert_existing (db : hubStore) (r : Row) (s : Varchar128) (t0 t : Int)
    (hn : (db.map rowKey).Nodup) (hr : r ∈ db) (ht0 : r.timestamp = some t0) :
    upsert db ⟨r.subscriber, s, r.topic, some t⟩ =
      db.map fun x => if x = r then { r with timestamp := if t0 < t then some t else some t0 }
        else x := by
  have hc : conflicts ⟨r.subscriber, s, r.topic, some t⟩ r = true := by
    rw [conflicts_iff]; exact ⟨rfl, rfl⟩
  have hany : db.any (conflicts ⟨r.subscriber, s, r.topic, some t⟩) = true :=
    List.any_eq_true.2 ⟨r, hr, hc⟩
  unfold upsert
  rw [if_pos hany]
  apply List.map_congr_left
  intro x hx
  by_cases hxr : x = r
  · subst hxr
    rw [if_pos hc, if_pos rfl, onConflict_of_conflicts _ _ hc, ht0]
    simp [sqlGt]
  · have hnc : ¬ conflicts ⟨r.subscriber, s, r.topic, some t⟩ x = true := by
      intro hcx
      rw [conflicts_iff] at hcx
      apply hxr
      apply eq_of_rowKey_eq hn hx hr
      simp only [rowKey, Prod.mk.injEq]
      exact ⟨congrArg Subtype.val hcx.1, congrArg Subtype.val hcx.2⟩
    rw [if_neg hnc, if_neg hxr]

theorem map_replace_self (db : hubStore) (r : Row) :
    (db.map fun x => if x = r then r else x) = db := by
  conv_rhs => rw [← List.map_id db]
  apply List.map_congr_left
  intro x _
  by_cases h : x = r
  · rw [if_pos h, h]; rfl
  · rw [if_neg h]; rfl

theorem State.addSubscriber_of_error (st : State) (cb sec tp err : String) (ts : Int)
    (rest : State → State) (h : SubHub.addSubscriber st.store cb sec tp ts = Except.error err) :
    st.addSubscriber cb sec tp ts rest = fatal st err := by
  unfold State.addSubscriber
  rw [h]

/-- C1 (amended): on a table that satisfies `UNIQUE (subscriber, topic)` and holds a
record `r` for (subscriber, topic) with timestamp `t0`, `addSubscriber` for that
pair with `t ≤ t0` leaves the whole table unchanged for every secret; with
`t > t0` and a secret that the column accepts it sets the timestamp of `r` to `t`
and changes nothing else (the stored secret and all other records stay); with a
secret that the column rejects the statement fails, the table is unchanged, the
error is printed and the process exits. -/
theorem addSubscriber_existing (db : hubStore) (r : Row) (secret : String) (t0 t : Int)
    (hu : (db.map rowKey).Nodup) (hr : r ∈ db) (ht0 : r.timestamp = some t0) :
    (t ≤ t0 → applyOp db (StoreOp.add r.subscriber.val secret r.topic.val t) = db) ∧
    ((varchar128 secret).isSome = true → t ≤ t0 →
      addSubscriber db r.subscriber.val secret r.topic.val t = Except.ok db) ∧
    ((varchar128 secret).isSome = true → t0 < t →
      addSubscriber db r.subscriber.val secret r.topic.val t =
        Except.ok (db.map fun x => if x = r then { r with timestamp := some t } else x)) ∧
    (varchar128 secret = none →
      applyOp db (StoreOp.add r.subscriber.val secret r.topic.val t) = db ∧
      ∃ err, addSubscriber db r.subscriber.val secret r.topic.val t = Except.error err ∧
        ∀ (out : List String) (rest : State → State),
          State.addSubscriber ⟨db, out, false⟩ r.subscriber.val secret r.topic.val t rest =
            ⟨db, out ++ [err], true⟩) := by
  have hsub := varchar128_val r.subscriber
  have htop := varchar128_val r.topic
  have hle : ∀ s, varchar128 secret = some s → t ≤ t0 →
      addSubscriber db r.subscriber.val secret r.topic.val t = Except.ok db := by
    intro s hs hle
    rw [addSubscriber_of_fits db t hsub hs htop, upsert_existing db r s t0 t hu hr ht0,
      if_neg (not_lt.2 hle), ← ht0]
    exact congrArg Except.ok (map_replace_self db r)
  have herr : varchar128 secret = none →
      ∃ err, addSubscriber db r.subscriber.val secret r.topic.val t = Except.error err := by
    intro hs
    rcases addSubscriber_cases db r.subscriber.val secret r.topic.val t with
      ⟨sub, s, top, -, h2, -, -⟩ | ⟨-, he | he⟩
    · rw [hs] at h2; cases h2
    · exact ⟨_, he⟩
    · exact ⟨_, he⟩
  refine ⟨?_, ?_, ?_, ?_⟩
  · intro hlt
    show tableAfter db (addSubscriber db r.subscriber.val secret r.topic.val t) = db
    cases hs : varchar128 secret with
    | none => obtain ⟨err, he⟩ := herr hs; rw [he]; rfl
    | some s => rw [hle s hs hlt]; rfl
  · intro hs hlt
    obtain ⟨s, hs⟩ := Option.isSome_iff_exists.1 hs
    exact hle s hs hlt
  · intro hs hlt
    obtain ⟨s, hs⟩ := Option.isSome_iff_exists.1 hs
    rw [addSubscriber_of_fits db t hsub hs htop, upsert_existing db r s t0 t hu hr ht0,
      if_pos hlt]
  · intro hs
    obtain ⟨err, he⟩ := herr hs
    refine ⟨?_, err, he, ?_⟩
    · show tableAfter db (addSubscriber db r.subscriber.val secret r.topic.val t) = db
      rw [he]; rfl
    · intro out rest
      exact State.addSubscriber_of_error ⟨db, out, false⟩ _ _ _ err t rest he

/-- C1, witness: a re-subscription of (`http://a`, `x`) stored with timestamp 5,
carried out with timestamp 7 and another secret, moves the timestamp to 7 and
keeps the stored secret and the other record. -/
theorem addSubscriber_existing_witness :
    (runOps [StoreOp.add "http://a" "s1" "x" 5, StoreOp.add "http://b" "" "x" 6]).map Row.values =
      [("http://a", "s1", "x", some 5), ("http://b", "", "x", some 6)] ∧
    (tableAfter [] (addSubscriber
        (runOps [StoreOp.add "http://a" "s1" "x" 5, StoreOp.add "http://b" "" "x" 6])
        "http://a" "s2" "x" 7)).map Row.values =
      [("http://a", "s1", "x", some 7), ("http://b", "", "x", some 6)] :=
  ⟨by decide,
    (congrArg (fun res => (tableAfter [] res).map Row.values)
      ((addSubscriber_existing
        (runOps [StoreOp.add "http://a" "s1" "x" 5, StoreOp.add "http://b" "" "x" 6])
        ⟨⟨"http://a", by decide⟩, ⟨"s1", by decide⟩, ⟨"x", by decide⟩, some 5⟩ "s2" 5 7
        (runOps_keys_nodup _) (by decide) rfl).2.2.1 (by decide) (by decide))).trans
      (by decide)⟩

/-- C1, counterexample: the record (`http://a`, `x`) is stored with timestamp 5;
`addSubscriber` for that pair with the later timestamp 7 and a secret of 129
characters fails, the process exits, and the table after the call still carries
timestamp 5, not the timestamp 7 of the claim. -/
theorem addSubscriber_long_secret_counterexample :
    (runOps [StoreOp.add "http://a" "s1" "x" 5]).map Row.values =
      [("http://a", "s1", "x", some 5)] ∧
    (5 : Int) < 7 ∧
    addSubscriber (runOps [StoreOp.add "http://a" "s1" "x" 5])
      "http://a" (String.mk (List.replicate 129 's')) "x" 7 = Except.error valueTooLong ∧
    (State.addSubscriber ⟨runOps [StoreOp.add "http://a" "s1" "x" 5], [], false⟩
      "http://a" (String.mk (List.replicate 129 's')) "x" 7 id).exited = true ∧
    (State.addSubscriber ⟨runOps [StoreOp.add "http://a" "s1" "x" 5], [], false⟩
      "http://a" (String.mk (List.replicate 129 's')) "x" 7 id).store.map Row.values =
        [("http://a", "s1", "x", some 5)] ∧
    (State.addSubscriber ⟨runOps [StoreOp.add "http://a" "s1" "x" 5], [], false⟩
      "http://a" (String.mk (List.replicate 129 's')) "x" 7 id).store.map Row.values ≠
        [("http://a", "s1", "x", some 7)] := by
  refine ⟨by decide, by decide, rfl, by decide, by decide, by decide⟩

/-- C2: in the table reached from the empty table by any finite sequence of
`addSubscriber` and `removeSubscriber` calls with arbitrary arguments, every
(subscriber, topic) pair has at most one record. -/
theorem uniqueness_invariant (ops : List StoreOp) (s t : String) :
    ((runOps ops).filter fun r => r.subscriber.val = s ∧ r.topic.val = t).length ≤ 1 :=
  filter_key_length_le_one _ (runOps_keys_nodup ops) s t

/-- C2, witness: two subscribe calls for the same pair followed by a subscribe
for another topic leave one record for the pair. -/
theorem uniqueness_invariant_witness :
    ((runOps [StoreOp.add "http://a" "" "x" 1, StoreOp.add "http://a" "k" "x" 2,
        StoreOp.add "http://a" "" "y" 3]).filter
      fun r => r.subscriber.val = "http://a" ∧ r.topic.val = "x").length ≤ 1 ∧
    (runOps [StoreOp.add "http://a" "" "x" 1, StoreOp.add "http://a" "k" "x" 2,
        StoreOp.add "http://a" "" "y" 3]).map Row.values =
      [("http://a", "", "x", some 2), ("http://a", "", "y", some 3)] :=
  ⟨uniqueness_invariant [StoreOp.add "http://a" "" "x" 1, StoreOp.add "http://a" "k" "x" 2,
      StoreOp.add "http://a" "" "y" 3] "http://a" "x", by decide⟩

/-! ## Lemmas on the handshake -/

theorem EncodeToString_length (src : List Byte) :
    (EncodeToString src).data.length = 2 * src.length := by
  unfold EncodeToString
  induction src with
  | nil => rfl
  | cons b rest ih =>
    simp only [List.flatMap_cons, List.length_append, List.length_cons, List.length_nil] at ih ⊢
    omega

theorem hextable_getD_mem (n : Nat) (h : n < 16) : hextable.getD n '0' ∈ hextable := by
  interval_cases n <;> simp [hextable]

theorem EncodeToString_hex (src : List Byte) :
    ∀ c ∈ (EncodeToString src).data, c ∈ hextable := by
  intro c hc
  unfold EncodeToString at hc
  simp only [List.mem_flatMap, List.mem_cons, List.mem_singleton] at hc
  obtain ⟨v, -, hv⟩ := hc
  rcases hv with hv | hv | hv
  · rw [hv]; exact hextable_getD_mem _ (by have := v.isLt; omega)
  · rw [hv]; exact hextable_getD_mem _ (Nat.mod_lt _ (by decide))
  · simp at hv

theorem generateChallenge_length (buf : Fin 64 → Byte) :
    (generateChallenge buf).data.length = 128 := by
  unfold generateChallenge
  rw [EncodeToString_length, List.length_ofFn]

theorem generateChallenge_ne_empty (buf : Fin 64 → Byte) : generateChallenge buf ≠ "" := by
  intro h
  have := generateChallenge_length buf
  rw [h] at this
  simp at this

theorem getRequest_challenge (cb mode tp c : String) (hc : c ≠ "") :
    getRequest cb mode tp c =
      ⟨cb, [("hub.mode", mode), ("hub.topic", tp), ("hub.challenge", c)]⟩ := by
  unfold getRequest
  rw [if_pos hc]
  rfl

theorem sendGET_of_response (parses : String → Bool)
    (client : GetRequest → Option (String × Int)) (cb mode tp c body : String) (status : Int)
    (hc : c ≠ "") (hp : parses cb = true)
    (hresp : client ⟨cb, [("hub.mode", mode), ("hub.topic", tp), ("hub.challenge", c)]⟩ =
      some (body, status)) :
    sendGET parses client cb mode tp c = some (body, status) := by
  unfold sendGET
  rw [getRequest_challenge _ _ _ _ hc, hresp]
  simp only [hp, if_true]

theorem sendGET_of_error (parses : String → Bool)
    (client : GetRequest → Option (String × Int)) (cb mode tp c : String)
    (hc : c ≠ "") (hp : parses cb = true)
    (hresp : client ⟨cb, [("hub.mode", mode), ("hub.topic", tp), ("hub.challenge", c)]⟩ = none) :
    sendGET parses client cb mode tp c = some ("", 0) := by
  unfold sendGET
  rw [getRequest_challenge _ _ _ _ hc, hresp]
  simp only [hp, if_true]

theorem sendGET_of_unparseable (parses : String → Bool)
    (client : GetRequest → Option (String × Int)) (cb mode tp c : String)
    (hp : parses cb = false) :
    sendGET parses client cb mode tp c = none := by
  unfold sendGET
  simp only [hp]
  rfl

theorem verifyIntent_of_sendGET (st : State) (buf : Fin 64 → Byte) (parses : String → Bool)
    (client : GetRequest → Option (String × Int)) (cb sec mode tp : String) (ts : Int)
    (body : String) (status : Int)
    (hget : sendGET parses client cb mode tp (generateChallenge buf) = some (body, status)) :
    verifyIntent st buf parses client cb sec mode tp ts =
      if generateChallenge buf ≠ body ∨ status = StatusNotFound then st
      else if mode = "unsubscribe" then
        st.removeSubscriber cb tp fun st1 =>
          println st1 (cb ++ " unsubscribed from " ++ tp)
      else if mode = "subscribe" then
        st.addSubscriber cb sec tp ts fun st2 =>
          println st2 (cb ++ " (re)subscribde to " ++ tp)
      else st := by
  unfold verifyIntent
  dsimp only
  rw [hget]
  dsimp only
  by_cases hrej : generateChallenge buf ≠ body ∨ status = StatusNotFound
  · rw [if_pos hrej, if_pos hrej]
  · rw [if_neg hrej, if_neg hrej]
    by_cases hu : mode = "unsubscribe"
    · have hs : ¬ mode = "subscribe" := by rw [hu]; decide
      rw [if_pos hu, if_pos hu]
      simp only [if_neg hs]
    · rw [if_neg hu, if_neg hu]

/-- What `verifyIntent` does with the answer of the subscriber. -/
theorem verifyIntent_of_response (st : State) (buf : Fin 64 → Byte) (parses : String → Bool)
    (client : GetRequest → Option (String × Int)) (cb sec mode tp : String) (ts : Int)
    (body : String) (status : Int) (hp : parses cb = true)
    (hresp : client ⟨cb, [("hub.mode", mode), ("hub.topic", tp),
      ("hub.challenge", generateChallenge buf)]⟩ = some (body, status)) :
    verifyIntent st buf parses client cb sec mode tp ts =
      if generateChallenge buf ≠ body ∨ status = StatusNotFound then st
      else if mode = "unsubscribe" then
        st.removeSubscriber cb tp fun st1 =>
          println st1 (cb ++ " unsubscribed from " ++ tp)
      else if mode = "subscribe" then
        st.addSubscriber cb sec tp ts fun st2 =>
          println st2 (cb ++ " (re)subscribde to " ++ tp)
      else st := by
  exact verifyIntent_of_sendGET st buf parses client cb sec mode tp ts body status
    (sendGET_of_response parses client cb mode tp _ body status
      (generateChallenge_ne_empty buf) hp hresp)

theorem verifyIntent_of_error (st : State) (buf : Fin 64 → Byte) (parses : String → Bool)
    (client : GetRequest → Option (String × Int)) (cb sec mode tp : String) (ts : Int)
    (hp : parses cb = true)
    (hresp : client ⟨cb, [("hub.mode", mode), ("hub.topic", tp),
      ("hub.challenge", generateChallenge buf)]⟩ = none) :
    verifyIntent st buf parses client cb sec mode tp ts = st := by
  rw [verifyIntent_of_sendGET st buf parses client cb sec mode tp ts "" 0
    (sendGET_of_error parses client cb mode tp _ (generateChallenge_ne_empty buf) hp hresp),
    if_pos (Or.inl (generateChallenge_ne_empty buf))]

theorem verifyIntent_of_unparseable (st : State) (buf : Fin 64 → Byte) (parses : String → Bool)
    (client : GetRequest → Option (String × Int)) (cb sec mode tp : String) (ts : Int)
    (hp : parses cb = false) :
    verifyIntent st buf parses client cb sec mode tp ts = crash st := by
  unfold verifyIntent
  dsimp only
  rw [sendGET_of_unparseable parses client cb mode tp _ hp]

theorem State.addSubscriber_println_stdout (st : State) (cb sec tp line : String) (ts : Int) :
    (st.addSubscriber cb sec tp ts fun st2 => println st2 line).stdout ≠ st.stdout := by
  unfold State.addSubscriber
  cases SubHub.addSubscriber st.store cb sec tp ts <;> simp [println, fatal]

theorem State.removeSubscriber_println_stdout (st : State) (cb tp line : String) :
    (st.removeSubscriber cb tp fun st1 => println st1 line).stdout ≠ st.stdout := by
  unfold State.removeSubscriber
  cases SubHub.removeSubscriber st.store cb tp <;> simp [println, fatal]

theorem State.addSubscriber_store (st : State) (cb sec tp : String) (ts : Int)
    (rest : State → State) (hrest : ∀ x, (rest x).store = x.store) :
    (st.addSubscriber cb sec tp ts rest).store =
      applyOp st.store (StoreOp.add cb sec tp ts) := by
  show _ = tableAfter st.store (SubHub.addSubscriber st.store cb sec tp ts)
  unfold State.addSubscriber
  cases SubHub.addSubscriber st.store cb sec tp ts with
  | error e => rfl
  | ok db => simp only [hrest]; rfl

theorem State.removeSubscriber_store (st : State) (cb tp : String)
    (rest : State → State) (hrest : ∀ x, (rest x).store = x.store) :
    (st.removeSubscriber cb tp rest).store = applyOp st.store (StoreOp.remove cb tp) := by
  show _ = tableAfter st.store (SubHub.removeSubscriber st.store cb tp)
  unfold State.removeSubscriber
  cases SubHub.removeSubscriber st.store cb tp with
  | error e => rfl
  | ok db => simp only [hrest]; rfl

/-- C3: for mode subscribe or unsubscribe and a callback that parses,
`verifyIntent` performs the store call of the mode if and only if the subscriber
answers the request that carries the challenge with a status other than 404 and
a body equal to the challenge; the call made is observable on standard output
(its confirmation or its error).  On any other answer, and on a transport error,
the whole state, the store included, is the state before.  For a callback that
does not parse the process panics before anything is sent and the store is the
store before. -/
theorem verifyIntent_handshake (st : State) (buf : Fin 64 → Byte) (parses : String → Bool)
    (client : GetRequest → Option (String × Int)) (cb sec mode tp : String) (ts : Int)
    (hmode : mode = "subscribe" ∨ mode = "unsubscribe") :
    (parses cb = true →
      ((∃ status, client ⟨cb, [("hub.mode", mode), ("hub.topic", tp),
            ("hub.challenge", generateChallenge buf)]⟩ = some (generateChallenge buf, status) ∧
          status ≠ 404) →
        verifyIntent st buf parses client cb sec mode tp ts =
          if mode = "unsubscribe" then
            st.removeSubscriber cb tp fun st1 =>
              println st1 (cb ++ " unsubscribed from " ++ tp)
          else
            st.addSubscriber cb sec tp ts fun st2 =>
              println st2 (cb ++ " (re)subscribde to " ++ tp)) ∧
      (¬ (∃ status, client ⟨cb, [("hub.mode", mode), ("hub.topic", tp),
            ("hub.challenge", generateChallenge buf)]⟩ = some (generateChallenge buf, status) ∧
          status ≠ 404) →
        verifyIntent st buf parses client cb sec mode tp ts = st) ∧
      ((verifyIntent st buf parses client cb sec mode tp ts).stdout ≠ st.stdout ↔
        ∃ status, client ⟨cb, [("hub.mode", mode), ("hub.topic", tp),
            ("hub.challenge", generateChallenge buf)]⟩ = some (generateChallenge buf, status) ∧
          status ≠ 404)) ∧
    (parses cb = false →
      verifyIntent st buf parses client cb sec mode tp ts = ⟨st.store, st.stdout, true⟩) := by
  have hacc : parses cb = true →
      (∃ status, client ⟨cb, [("hub.mode", mode), ("hub.topic", tp),
            ("hub.challenge", generateChallenge buf)]⟩ = some (generateChallenge buf, status) ∧
          status ≠ 404) →
        verifyIntent st buf parses client cb sec mode tp ts =
          if mode = "unsubscribe" then
            st.removeSubscriber cb tp fun st1 =>
              println st1 (cb ++ " unsubscribed from " ++ tp)
          else
            st.addSubscriber cb sec tp ts fun st2 =>
              println st2 (cb ++ " (re)subscribde to " ++ tp) := by
    rintro hp ⟨status, hresp, hstatus⟩
    rw [verifyIntent_of_response st buf parses client cb sec mode tp ts _ status hp hresp,
      if_neg (by rw [not_or]; exact ⟨not_not.2 rfl, hstatus⟩)]
    rcases hmode with hm | hm
    · rw [if_neg (by rw [hm]; decide), if_pos hm, if_neg (by rw [hm]; decide)]
    · rw [if_pos hm, if_pos hm]
  have hrej : parses cb = true →
      ¬ (∃ status, client ⟨cb, [("hub.mode", mode), ("hub.topic", tp),
            ("hub.challenge", generateChallenge buf)]⟩ = some (generateChallenge buf, status) ∧
          status ≠ 404) →
        verifyIntent st buf parses client cb sec mode tp ts = st := by
    intro hp hno
    cases hresp : client ⟨cb, [("hub.mode", mode), ("hub.topic", tp),
        ("hub.challenge", generateChallenge buf)]⟩ with
    | none => exact verifyIntent_of_error st buf parses client cb sec mode tp ts hp hresp
    | some r =>
      obtain ⟨body, status⟩ := r
      rw [verifyIntent_of_response st buf parses client cb sec mode tp ts body status hp hresp,
        if_pos]
      by_contra hc
      rw [not_or, not_not] at hc
      apply hno
      refine ⟨status, ?_, hc.2⟩
      rw [hresp, hc.1]
  refine ⟨fun hp => ⟨hacc hp, hrej hp, ⟨?_, ?_⟩⟩, ?_⟩
  · intro hne
    by_contra hno
    exact hne (by rw [hrej hp hno])
  · intro h
    rw [hacc hp h]
    by_cases hm : mode = "unsubscribe"
    · rw [if_pos hm]; exact State.removeSubscriber_println_stdout st cb tp _
    · rw [if_neg hm]; exact State.addSubscriber_println_stdout st cb sec tp _ ts
  · intro hp
    exact verifyIntent_of_unparseable st buf parses client cb sec mode tp ts hp

/-- C3, witness: a subscriber that echoes the challenge with status 404 is
rejected on an unsubscribe request and its record stays; a subscriber that
answers 200 with another body is rejected as well. -/
theorem verifyIntent_handshake_witness :
    (verifyIntent ⟨runOps [StoreOp.add "http://a" "k" "x" 3], [], false⟩ (fun _ => 7) plainURL
      (fun req => some ((req.query.lookup "hub.challenge").getD "", 404))
      "http://a" "" "unsubscribe" "x" 9 =
        ⟨runOps [StoreOp.add "http://a" "k" "x" 3], [], false⟩) ∧
    (verifyIntent ⟨runOps [StoreOp.add "http://a" "k" "x" 3], [], false⟩ (fun _ => 7) plainURL
      (fun _ => some ("ok", 200))
      "http://a" "" "unsubscribe" "x" 9 =
        ⟨runOps [StoreOp.add "http://a" "k" "x" 3], [], false⟩) := by
  constructor
  · refine ((verifyIntent_handshake ⟨runOps [StoreOp.add "http://a" "k" "x" 3], [], false⟩
      (fun _ => 7) plainURL (fun req => some ((req.query.lookup "hub.challenge").getD "", 404))
      "http://a" "" "unsubscribe" "x" 9 (Or.inr rfl)).1 (by decide)).2.1 ?_
    rintro ⟨status, h, hs⟩
    exact hs (congrArg Prod.snd (Option.some.inj h)).symm
  · refine ((verifyIntent_handshake ⟨runOps [StoreOp.add "http://a" "k" "x" 3], [], false⟩
      (fun _ => 7) plainURL (fun _ => some ("ok", 200))
      "http://a" "" "unsubscribe" "x" 9 (Or.inr rfl)).1 (by decide)).2.1 ?_
    rintro ⟨status, h, -⟩
    have hlen := generateChallenge_length (fun _ => 7)
    have hok : "ok" = generateChallenge (fun _ => 7) := congrArg Prod.fst (Option.some.inj h)
    rw [← hok] at hlen
    exact absurd hlen (by decide)

/-- C4 (amended): when the callback parses and the subscriber echoes the
challenge with a status other than 404, `verifyIntent` with mode unsubscribe
yields the store produced by `removeSubscriber(callback, topic)` and with mode
subscribe the store produced by `addSubscriber(callback, secret, topic,
timestamp)`; from the empty store an accepted subscribe with no secret whose
callback and topic are values of type `VARCHAR(128)` (at most 128 characters, no
U+0000) leaves exactly the record (callback, "", topic, timestamp). -/
theorem verifyIntent_accepted_effect (st : State) (buf : Fin 64 → Byte)
    (parses : String → Bool) (client : GetRequest → Option (String × Int))
    (cb sec mode tp : String) (ts status : Int)
    (hp : parses cb = true)
    (hresp : client ⟨cb, [("hub.mode", mode), ("hub.topic", tp),
      ("hub.challenge", generateChallenge buf)]⟩ = some (generateChallenge buf, status))
    (hstatus : status ≠ 404) :
    (mode = "unsubscribe" →
      (verifyIntent st buf parses client cb sec mode tp ts).store =
        applyOp st.store (StoreOp.remove cb tp)) ∧
    (mode = "subscribe" →
      (verifyIntent st buf parses client cb sec mode tp ts).store =
        applyOp st.store (StoreOp.add cb sec tp ts)) ∧
    (mode = "subscribe" → st.store = [] → sec = "" →
      fits128 cb = true → fits128 tp = true →
      (verifyIntent st buf parses client cb sec mode tp ts).store.map Row.values =
        [(cb, "", tp, some ts)]) := by
  have hv := verifyIntent_of_response st buf parses client cb sec mode tp ts _ status hp hresp
  rw [if_neg (by rw [not_or]; exact ⟨not_not.2 rfl, hstatus⟩)] at hv
  have hsub : mode = "subscribe" →
      (verifyIntent st buf parses client cb sec mode tp ts).store =
        applyOp st.store (StoreOp.add cb sec tp ts) := by
    intro hm
    rw [hv, if_neg (by rw [hm]; decide), if_pos hm]
    exact State.addSubscriber_store st cb sec tp ts _ (fun _ => rfl)
  refine ⟨?_, hsub, ?_⟩
  · intro hm
    rw [hv, if_pos hm]
    exact State.removeSubscriber_store st cb tp _ (fun _ => rfl)
  · intro hm hempty hsec hcb htp
    rw [hsub hm, hempty, hsec]
    show (tableAfter [] (addSubscriber [] cb "" tp ts)).map Row.values = _
    rw [addSubscriber_of_fits [] ts (varchar128_of_fits cb hcb)
      (varchar128_of_fits "" (by decide)) (varchar128_of_fits tp htp)]
    rfl

/-- C4, witness: Scenario A of the specification. -/
theorem verifyIntent_accepted_effect_witness :
    (verifyIntent ⟨[], [], false⟩ (fun _ => 0) plainURL
        (fun req => some ((req.query.lookup "hub.challenge").getD "", 200))
        "http://a" "" "subscribe" "x" 17).store.map Row.values =
      [("http://a", "", "x", some 17)] :=
  (verifyIntent_accepted_effect ⟨[], [], false⟩ (fun _ => 0) plainURL
    (fun req => some ((req.query.lookup "hub.challenge").getD "", 200))
    "http://a" "" "subscribe" "x" 17 200 (by decide) (by decide) (by decide)).2.2
      rfl rfl rfl (by decide) (by decide)

/-- C4, counterexample: the callback `http://a/ppp...p` has 129 characters and
parses; its subscriber echoes the challenge with status 200, so the subscribe
with no secret is accepted on the empty store.  The INSERT fails on the length
of the callback, the process exits, and the store is still empty: it does not
hold the one record of the claim. -/
theorem verifyIntent_long_callback_counterexample :
    ("http://a/" ++ String.mk (List.replicate 120 'p')).length = 129 ∧
    plainURL ("http://a/" ++ String.mk (List.replicate 120 'p')) = true ∧
    (fun req : GetRequest => some ((req.query.lookup "hub.challenge").getD "", (200 : Int)))
      ⟨"http://a/" ++ String.mk (List.replicate 120 'p'),
        [("hub.mode", "subscribe"), ("hub.topic", "x"),
          ("hub.challenge", generateChallenge fun _ => 0)]⟩ =
      some (generateChallenge fun _ => 0, 200) ∧
    verifyIntent ⟨[], [], false⟩ (fun _ => 0) plainURL
        (fun req => some ((req.query.lookup "hub.challenge").getD "", 200))
        ("http://a/" ++ String.mk (List.replicate 120 'p')) "" "subscribe" "x" 17 =
      ⟨[], [valueTooLong], true⟩ ∧
    (verifyIntent ⟨[], [], false⟩ (fun _ => 0) plainURL
        (fun req => some ((req.query.lookup "hub.challenge").getD "", 200))
        ("http://a/" ++ String.mk (List.replicate 120 'p')) "" "subscribe" "x" 17).store.length
      ≠ 1 := by
  have hget : (fun req : GetRequest =>
        some ((req.query.lookup "hub.challenge").getD "", (200 : Int)))
      ⟨"http://a/" ++ String.mk (List.replicate 120 'p'),
        [("hub.mode", "subscribe"), ("hub.topic", "x"),
          ("hub.challenge", generateChallenge fun _ => 0)]⟩ =
      some (generateChallenge fun _ => 0, 200) := by decide
  have hrun : verifyIntent ⟨[], [], false⟩ (fun _ => 0) plainURL
        (fun req => some ((req.query.lookup "hub.challenge").getD "", 200))
        ("http://a/" ++ String.mk (List.replicate 120 'p')) "" "subscribe" "x" 17 =
      ⟨[], [valueTooLong], true⟩ := by
    rw [verifyIntent_of_response _ _ _ _ _ _ _ _ _ _ 200 (by decide) hget,
      if_neg (by decide), if_neg (by decide), if_pos rfl]
    exact State.addSubscriber_of_error _ _ _ _ valueTooLong _ _ rfl
  refine ⟨by decide, by decide, hget, hrun, ?_⟩
  rw [hrun]
  decide

/-- C9: for every 64-byte random buffer the challenge is a string of exactly 128
characters, all of them hex digits, hence not empty; when the outbound GET to a
callback that parses fails at transport level, `sendGET` returns an empty body
and status 0, and whenever `sendGET` returns an empty body and status 0
`verifyIntent` leaves the state, the store included, unchanged whatever the
mode. -/
theorem transport_failure_rejects (buf : Fin 64 → Byte) :
    (generateChallenge buf).length = 128 ∧
    (∀ c ∈ (generateChallenge buf).data, c ∈ hextable) ∧
    generateChallenge buf ≠ "" ∧
    (∀ (parses : String → Bool) (client : GetRequest → Option (String × Int))
      (cb mode tp : String), parses cb = true →
        client ⟨cb, [("hub.mode", mode), ("hub.topic", tp),
          ("hub.challenge", generateChallenge buf)]⟩ = none →
        sendGET parses client cb mode tp (generateChallenge buf) = some ("", 0)) ∧
    (∀ (st : State) (parses : String → Bool) (client : GetRequest → Option (String × Int))
      (cb sec mode tp : String) (ts : Int),
        sendGET parses client cb mode tp (generateChallenge buf) = some ("", 0) →
        verifyIntent st buf parses client cb sec mode tp ts = st) ∧
    (∀ (st : State) (parses : String → Bool) (client : GetRequest → Option (String × Int))
      (cb sec mode tp : String) (ts : Int), parses cb = true →
        client ⟨cb, [("hub.mode", mode), ("hub.topic", tp),
          ("hub.challenge", generateChallenge buf)]⟩ = none →
        verifyIntent st buf parses client cb sec mode tp ts = st) := by
  refine ⟨generateChallenge_length buf, EncodeToString_hex _, generateChallenge_ne_empty buf,
    ?_, ?_, ?_⟩
  · intro parses client cb mode tp hp hnone
    exact sendGET_of_error parses client cb mode tp _ (generateChallenge_ne_empty buf) hp hnone
  rotate_left
  · intro st parses client cb sec mode tp ts hp hnone
    exact verifyIntent_of_error st buf parses client cb sec mode tp ts hp hnone
  · intro st parses client cb sec mode tp ts hget
    rw [verifyIntent_of_sendGET st buf parses client cb sec mode tp ts "" 0 hget,
      if_pos (Or.inl (generateChallenge_ne_empty buf))]

/-- C9, witness: an unreachable callback leaves a stored subscription in place
on an unsubscribe request. -/
theorem transport_failure_rejects_witness :
    sendGET plainURL (fun _ => none) "http://a" "unsubscribe" "x"
      (generateChallenge fun _ => 255) = some ("", 0) ∧
    verifyIntent ⟨runOps [StoreOp.add "http://a" "" "x" 1], [], false⟩ (fun _ => 255)
      plainURL (fun _ => none) "http://a" "" "unsubscribe" "x" 2 =
        ⟨runOps [StoreOp.add "http://a" "" "x" 1], [], false⟩ :=
  ⟨(transport_failure_rejects (fun _ => 255)).2.2.2.1 plainURL (fun _ => none)
      "http://a" "unsubscribe" "x" (by decide) rfl,
    (transport_failure_rejects (fun _ => 255)).2.2.2.2.1
      ⟨runOps [StoreOp.add "http://a" "" "x" 1], [], false⟩ plainURL (fun _ => none)
      "http://a" "" "unsubscribe" "x" 2
      ((transport_failure_rejects (fun _ => 255)).2.2.2.1 plainURL (fun _ => none)
        "http://a" "unsubscribe" "x" (by decide) rfl)⟩

/-! ## Lemmas on the distribution pass -/

theorem sendContent_eq_true_iff (mac : String → String → List Byte)
    (client : PostRequest → Option Int) (url secret topic content : String) :
    sendContent mac client url secret topic content = true ↔
      client (contentRequest mac url secret topic content) = some StatusOK := by
  unfold sendContent
  cases client (contentRequest mac url secret topic content) with
  | none => simp
  | some code => simp

theorem State.removeSubscriber_of_text (st : State) (cb tp : String) (rest : State → State)
    (h1 : pgText cb = true) (h2 : pgText tp = true) :
    st.removeSubscriber cb tp rest =
      rest { st with store :=
        st.store.filter fun r => !(r.subscriber.val == cb && r.topic.val == tp) } := by
  unfold State.removeSubscriber SubHub.removeSubscriber
  rw [h1, h2]
  rfl

theorem runTask_push (env : Env) (st : State) (sub : subscription) (a : String)
    (h : st.exited = false) (h1 : pgText sub.subscriber = true) (h2 : pgText sub.topic = true) :
    (runTask env st (Task.push sub a)).store = st.store.filter (keeps env (Task.push sub a)) ∧
      (runTask env st (Task.push sub a)).exited = false := by
  have hk : keeps env (Task.push sub a) = fun r =>
      (sendContent env.mac env.post sub.subscriber sub.secret sub.topic a ||
        !(r.subscriber.val == sub.subscriber && r.topic.val == sub.topic)) := rfl
  unfold runTask
  rw [h, if_neg (by decide), hk]
  dsimp only
  cases hs : sendContent env.mac env.post sub.subscriber sub.secret sub.topic a with
  | true =>
    refine ⟨?_, h⟩
    simp
  | false =>
    rw [State.removeSubscriber_of_text st _ _ id h1 h2]
    refine ⟨?_, h⟩
    simp

theorem runTasks_push (env : Env) (ts : List Task) :
    ∀ st : State, st.exited = false →
      (∀ t ∈ ts, ∃ sub a, t = Task.push sub a ∧ pgText sub.subscriber = true ∧
        pgText sub.topic = true) →
      (runTasks env st ts).store = st.store.filter (fun r => ts.all fun t => keeps env t r) := by
  induction ts with
  | nil => intro st _ _; simp [runTasks]
  | cons t ts ih =>
    intro st hst hpush
    obtain ⟨sub, a, rfl, h1, h2⟩ := hpush t (List.mem_cons_self _ _)
    have hstep := runTask_push env st sub a hst h1 h2
    have := ih (runTask env st (Task.push sub a)) hstep.2
      (fun x hx => hpush x (List.mem_cons_of_mem _ hx))
    unfold runTasks at this ⊢
    rw [List.foldl_cons, this, hstep.1, List.filter_filter]
    apply List.filter_congr
    intro r _
    rw [List.all_cons, Bool.and_comm]

theorem mem_getAllSubsByTopic (db : hubStore) (topic : String) (sub : subscription) :
    sub ∈ getAllSubsByTopic db topic ↔
      ∃ r ∈ db, r.topic.val = topic ∧ sub = ⟨r.subscriber.val, r.secret.val, r.topic.val⟩ := by
  unfold getAllSubsByTopic
  simp only [List.mem_map, List.mem_filter, beq_iff_eq]
  constructor
  · rintro ⟨r, ⟨hr, ht⟩, rfl⟩; exact ⟨r, hr, ht, rfl⟩
  · rintro ⟨r, hr, ht, rfl⟩; exact ⟨r, ⟨hr, ht⟩, rfl⟩

/-- C5: after one pass of `dummyPublisher` in which all pushes have completed, in
whatever order, the records of the published topic that remain are exactly those
whose push was answered with status 200; a subscriber answering any other status
or unreachable is absent, and the records of other topics are unchanged. -/
theorem dummyPublisher_eviction (env : Env) (st : State) (advice : String) (order : List Task)
    (hu : (st.store.map rowKey).Nodup) (hrun : st.exited = false)
    (hperm : order.Perm (dummyPublisher st advice).2) :
    (runTasks env st order).store =
      st.store.filter fun r => decide (r.topic.val ≠ "advice" ∨
        env.post (contentRequest env.mac r.subscriber.val r.secret.val r.topic.val advice) =
          some StatusOK) := by
  have hmem : ∀ t, t ∈ order ↔
      ∃ sub ∈ getAllSubsByTopic st.store "advice", Task.push sub advice = t := by
    intro t
    rw [hperm.mem_iff]
    unfold dummyPublisher
    simp only [List.mem_map]
  rw [runTasks_push env order st hrun
    (fun t ht => by
      obtain ⟨sub, hsub, rfl⟩ := (hmem t).1 ht
      obtain ⟨r, -, -, rfl⟩ := (mem_getAllSubsByTopic _ _ _).1 hsub
      exact ⟨_, advice, rfl, pgText_of_fits r.subscriber.property,
        pgText_of_fits r.topic.property⟩)]
  apply List.filter_congr
  intro r hr
  rw [Bool.eq_iff_iff, List.all_eq_true, decide_eq_true_iff]
  constructor
  · intro hall
    by_cases htop : r.topic.val = "advice"
    · right
      have hin : Task.push ⟨r.subscriber.val, r.secret.val, r.topic.val⟩ advice ∈ order :=
        (hmem _).2 ⟨_, (mem_getAllSubsByTopic _ _ _).2 ⟨r, hr, htop, rfl⟩, rfl⟩
      have hk := hall _ hin
      simp only [keeps, beq_self_eq_true, Bool.and_self, Bool.not_true, Bool.or_false] at hk
      exact (sendContent_eq_true_iff _ _ _ _ _ _).1 hk
    · left; exact htop
  · intro hkeep t ht
    obtain ⟨sub, hsub, rfl⟩ := (hmem t).1 ht
    obtain ⟨r', hr', htop', rfl⟩ := (mem_getAllSubsByTopic _ _ _).1 hsub
    by_cases hk : r.subscriber.val = r'.subscriber.val ∧ r.topic.val = r'.topic.val
    · have hrr : r = r' := eq_of_rowKey_eq hu hr hr' (by simp [rowKey, hk.1, hk.2])
      subst hrr
      rcases hkeep with hne | hok
      · exact absurd htop' hne
      · simp [keeps, (sendContent_eq_true_iff _ _ _ _ _ _).2 hok]
    · simp only [keeps, Bool.or_eq_true, Bool.not_eq_true', Bool.and_eq_false_iff,
        beq_eq_false_iff_ne]
      right
      by_cases h1 : r.subscriber.val = r'.subscriber.val
      · right; exact fun h2 => hk ⟨h1, h2⟩
      · left; exact h1

/-- C5, witness: Scenario C of the specification.  Two subscribers of the
published topic, `http://a` answering 200 and `http://b` answering 500, and one
subscriber of another topic that is unreachable: the pass leaves `http://a` and
the record of the other topic. -/
theorem dummyPublisher_eviction_witness :
    (runOps [StoreOp.add "http://a" "" "advice" 1, StoreOp.add "http://b" "k" "advice" 2,
        StoreOp.add "http://b" "k" "x" 3]).map Row.values =
      [("http://a", "", "advice", some 1), ("http://b", "k", "advice", some 2),
        ("http://b", "k", "x", some 3)] ∧
    (runTasks ⟨fun _ _ => [], plainURL, fun _ => none,
        fun req => if req.url = "http://a" then some 200 else some 500, fun _ => 0⟩
      ⟨runOps [StoreOp.add "http://a" "" "advice" 1, StoreOp.add "http://b" "k" "advice" 2,
        StoreOp.add "http://b" "k" "x" 3], [], false⟩
      [Task.push ⟨"http://b", "k", "advice"⟩ "hi",
        Task.push ⟨"http://a", "", "advice"⟩ "hi"]).store.map Row.values
      = [("http://a", "", "advice", some 1), ("http://b", "k", "x", some 3)] :=
  ⟨by decide,
    (congrArg (List.map Row.values)
      (dummyPublisher_eviction ⟨fun _ _ => [], plainURL, fun _ => none,
        fun req => if req.url = "http://a" then some 200 else some 500, fun _ => 0⟩
      ⟨runOps [StoreOp.add "http://a" "" "advice" 1, StoreOp.add "http://b" "k" "advice" 2,
        StoreOp.add "http://b" "k" "x" 3], [], false⟩ "hi"
      [Task.push ⟨"http://b", "k", "advice"⟩ "hi", Task.push ⟨"http://a", "", "advice"⟩ "hi"]
      (runOps_keys_nodup _) rfl (List.Perm.swap _ _ _))).trans (by decide)⟩

/-! ## Lemmas on the intake -/

theorem handleSubscriber_of_missing (FormValue : String → String) (now : Int)
    (h : FormValue "hub.callback" = "" ∨ FormValue "hub.mode" = "" ∨
      FormValue "hub.topic" = "") :
    handleSubscriber FormValue now =
      (⟨StatusBadRequest, "Error: params hub.callback, hub.mode, and hub.topic required!"⟩,
        [Task.sendGET (FormValue "hub.callback") "denied" (FormValue "hub.topic") ""]) := by
  unfold handleSubscriber
  dsimp only
  rw [if_pos h]

theorem runTasks_denial (env : Env) (st : State) (cb tp : String) :
    runTasks env st [Task.sendGET cb "denied" tp ""] =
      if st.exited = false ∧ env.parses cb = false then crash st else st := by
  simp only [runTasks, List.foldl_cons, List.foldl_nil, runTask, sendGET]
  cases hex : st.exited
  · cases hp : env.parses cb
    · simp
    · cases env.get (getRequest cb "denied" tp "") <;> simp
  · simp

/-- C6: when `hub.callback`, `hub.mode` or `hub.topic` is empty, `handleSubscriber`
answers 400 and starts no `verifyIntent` task; once everything it started has
run, the store and the standard output are unchanged, and the whole state is
unchanged when the callback parses.  When all three are present it answers 202
and starts exactly one task, the `verifyIntent` of the callback, secret, mode
and topic of the request with the time of the request. -/
theorem handleSubscriber_intake (FormValue : String → String) (now : Int) :
    ((FormValue "hub.callback" = "" ∨ FormValue "hub.mode" = "" ∨ FormValue "hub.topic" = "") →
      (handleSubscriber FormValue now).1.code = 400 ∧
      (∀ cb sec mode tp ts,
        Task.verifyIntent cb sec mode tp ts ∉ (handleSubscriber FormValue now).2) ∧
      ∀ (env : Env) (st : State),
        (runTasks env st (handleSubscriber FormValue now).2).store = st.store ∧
        (runTasks env st (handleSubscriber FormValue now).2).stdout = st.stdout ∧
        (env.parses (FormValue "hub.callback") = true →
          runTasks env st (handleSubscriber FormValue now).2 = st)) ∧
    (¬ (FormValue "hub.callback" = "" ∨ FormValue "hub.mode" = "" ∨ FormValue "hub.topic" = "") →
      (handleSubscriber FormValue now).1.code = 202 ∧
      (handleSubscriber FormValue now).2 =
        [Task.verifyIntent (FormValue "hub.callback") (FormValue "hub.secret")
          (FormValue "hub.mode") (FormValue "hub.topic") now]) := by
  constructor
  · intro h
    rw [handleSubscriber_of_missing FormValue now h]
    refine ⟨rfl, ?_, ?_⟩
    · intro cb sec mode tp ts hmem
      simp at hmem
    · intro env st
      dsimp only
      rw [runTasks_denial]
      refine ⟨?_, ?_, ?_⟩
      · split_ifs <;> rfl
      · split_ifs <;> rfl
      · intro hp
        rw [if_neg (by rw [hp]; simp)]
  · intro h
    unfold handleSubscriber
    dsimp only
    rw [if_neg h]
    exact ⟨rfl, rfl⟩

/-- C6, witness: Scenario D of the specification, a subscribe request without
`hub.topic`. -/
theorem handleSubscriber_intake_witness :
    (handleSubscriber (fun k => if k = "hub.callback" then "http://a"
        else if k = "hub.mode" then "subscribe" else "") 5).1.code = 400 ∧
    (runTasks ⟨fun _ _ => [], plainURL, fun _ => some ("", 200), fun _ => some 200, fun _ => 0⟩
      ⟨[], [], false⟩
      (handleSubscriber (fun k => if k = "hub.callback" then "http://a"
        else if k = "hub.mode" then "subscribe" else "") 5).2).store = [] :=
  ⟨((handleSubscriber_intake (fun k => if k = "hub.callback" then "http://a"
        else if k = "hub.mode" then "subscribe" else "") 5).1 (by decide)).1,
    (((handleSubscriber_intake (fun k => if k = "hub.callback" then "http://a"
        else if k = "hub.mode" then "subscribe" else "") 5).1 (by decide)).2.2
      ⟨fun _ _ => [], plainURL, fun _ => some ("", 200), fun _ => some 200, fun _ => 0⟩
      ⟨[], [], false⟩).1⟩

/-- C7 (amended): when a required intake field is missing, `handleSubscriber`
returns the client error 400 and dispatches exactly one background task, the
denial `sendGET` of the callback with mode `denied`, the topic and no challenge;
for a callback that parses that task hands the client the GET with `hub.mode`
and `hub.topic` only.  No verification task is dispatched and the store is
unchanged once the task has run. -/
theorem handleSubscriber_validation_error (FormValue : String → String) (now : Int)
    (h : FormValue "hub.callback" = "" ∨ FormValue "hub.mode" = "" ∨
      FormValue "hub.topic" = "") :
    (handleSubscriber FormValue now).1.code = 400 ∧
    (handleSubscriber FormValue now).2 =
      [Task.sendGET (FormValue "hub.callback") "denied" (FormValue "hub.topic") ""] ∧
    (∀ (parses : String → Bool) (client : GetRequest → Option (String × Int)),
      parses (FormValue "hub.callback") = true →
      sendGET parses client (FormValue "hub.callback") "denied" (FormValue "hub.topic") "" =
        some ((client ⟨FormValue "hub.callback",
          [("hub.mode", "denied"), ("hub.topic", FormValue "hub.topic")]⟩).getD ("", 0))) ∧
    ∀ (env : Env) (st : State),
      (runTasks env st (handleSubscriber FormValue now).2).store = st.store := by
  rw [handleSubscriber_of_missing FormValue now h]
  refine ⟨rfl, rfl, ?_, ?_⟩
  · intro parses client hp
    unfold sendGET
    rw [if_pos hp]
    show (match client ⟨FormValue "hub.callback",
        [("hub.mode", "denied"), ("hub.topic", FormValue "hub.topic")]⟩ with
      | none => some ("", 0)
      | some (body, statusCode) => some (body, statusCode)) = _
    cases client ⟨FormValue "hub.callback",
        [("hub.mode", "denied"), ("hub.topic", FormValue "hub.topic")]⟩ <;> rfl
  · intro env st
    dsimp only
    rw [runTasks_denial]
    split_ifs <;> rfl

/-- C7, witness: a request without `hub.mode`. -/
theorem handleSubscriber_validation_error_witness :
    (handleSubscriber (fun k => if k = "hub.callback" then "http://a"
        else if k = "hub.topic" then "x" else "") 5).2 =
      [Task.sendGET "http://a" "denied" "x" ""] :=
  (handleSubscriber_validation_error (fun k => if k = "hub.callback" then "http://a"
        else if k = "hub.topic" then "x" else "") 5 (by decide)).2.1

/-- C7, counterexample: a subscribe request without `hub.topic` is answered with
400 and yet dispatches a background task, which sends a GET to the callback:
the subscriber below answers only that request, and the task receives its
answer. -/
theorem handleSubscriber_dispatch_counterexample :
    (handleSubscriber (fun k => if k = "hub.callback" then "http://a"
        else if k = "hub.mode" then "subscribe" else "") 5).1.code = 400 ∧
    (handleSubscriber (fun k => if k = "hub.callback" then "http://a"
        else if k = "hub.mode" then "subscribe" else "") 5).2 =
      [Task.sendGET "http://a" "denied" "" ""] ∧
    (handleSubscriber (fun k => if k = "hub.callback" then "http://a"
        else if k = "hub.mode" then "subscribe" else "") 5).2 ≠ [] ∧
    sendGET plainURL
      (fun req => if req = ⟨"http://a", [("hub.mode", "denied"), ("hub.topic", "")]⟩
        then some ("seen", 200) else none)
      "http://a" "denied" "" "" = some ("seen", 200) := by
  refine ⟨by decide, by decide, by decide, by decide⟩

/-- C8: the `X-Hub-Signature` header of the POST built by `sendContent` is
`sha256=` followed by the hex encoding of the HMAC keyed with the secret of the
subscription and computed over the very body of the request; the encoding uses
the digits `0-9a-f` only, two per digest byte; the header is therefore a function
of secret and body alone, and the request is the one handed to the client. -/
theorem sendContent_signature (mac : String → String → List Byte)
    (url secret topic content : String) :
    (contentRequest mac url secret topic content).header =
      [("X-Hub-Signature",
          "sha256=" ++ EncodeToString (mac secret (contentRequest mac url secret topic content).body)),
        ("Content-Type", "application/json")] ∧
    (∀ c ∈ (EncodeToString (mac secret (contentRequest mac url secret topic content).body)).data,
      c ∈ ['0', '1', '2', '3', '4', '5', '6', '7', '8', '9', 'a', 'b', 'c', 'd', 'e', 'f']) ∧
    (EncodeToString (mac secret (contentRequest mac url secret topic content).body)).length =
      2 * (mac secret (contentRequest mac url secret topic content).body).length ∧
    (∀ client : PostRequest → Option Int,
      sendContent mac client url secret topic content =
        (client (contentRequest mac url secret topic content) == some 200)) := by
  refine ⟨rfl, EncodeToString_hex _, EncodeToString_length _, ?_⟩
  intro client
  unfold sendContent
  cases client (contentRequest mac url secret topic content) with
  | none => rfl
  | some code =>
    show (code == StatusOK) = (some code == some 200)
    by_cases hc : code = 200
    · subst hc; rfl
    · have h1 : (code == StatusOK) = false := by
        rw [beq_eq_false_iff_ne]; exact hc
      have h2 : (some code == some (200 : Int)) = false := by
        rw [beq_eq_false_iff_ne]; intro h; exact hc (Option.some.inj h)
      rw [h1, h2]

/-- C8, witness: a digest of the two bytes 0xAB and 0x01 is carried as
`sha256=ab01`. -/
theorem sendContent_signature_witness :
    (contentRequest (fun _ _ => [0xab, 0x01]) "http://a" "k" "x" "y").header =
      [("X-Hub-Signature", "sha256=ab01"), ("Content-Type", "application/json")] :=
  (sendContent_signature (fun _ _ => [0xab, 0x01]) "http://a" "k" "x" "y").1.trans (by decide)

/-! ## Lemmas on the serialized body -/

theorem append_cons_inj {α : Type} (q : α) :
    ∀ (l1 l2 r1 r2 : List α), q ∉ l1 → q ∉ l2 → l1 ++ q :: r1 = l2 ++ q :: r2 →
      l1 = l2 ∧ r1 = r2 := by
  intro l1
  induction l1 with
  | nil =>
    intro l2 r1 r2 _ h2 h
    cases l2 with
    | nil => exact ⟨rfl, (List.cons.inj h).2⟩
    | cons b l2 =>
      exfalso
      apply h2
      rw [List.nil_append, List.cons_append] at h
      rw [(List.cons.inj h).1]
      exact List.mem_cons_self _ _
  | cons a l1 ih =>
    intro l2 r1 r2 h1 h2 h
    cases l2 with
    | nil =>
      exfalso
      apply h1
      rw [List.nil_append, List.cons_append] at h
      rw [← (List.cons.inj h).1]
      exact List.mem_cons_self _ _
    | cons b l2 =>
      rw [List.cons_append, List.cons_append] at h
      obtain ⟨hab, ht⟩ := List.cons.inj h
      obtain ⟨hl, hr⟩ := ih l2 r1 r2 (fun hm => h1 (List.mem_cons_of_mem _ hm))
        (fun hm => h2 (List.mem_cons_of_mem _ hm)) ht
      exact ⟨by rw [hab, hl], hr⟩

theorem contentRequest_body_data (mac : String → String → List Byte)
    (url secret topic content : String) :
    (contentRequest mac url secret topic content).body.data =
      ['\x7b', Char.ofNat 34, 't', 'o', 'p', 'i', 'c', Char.ofNat 34, ':', Char.ofNat 34] ++
        (topic.data ++ (Char.ofNat 34 ::
          ([',', ' ', Char.ofNat 34, 'c', 'o', 'n', 't', 'e', 'n', 't', Char.ofNat 34, ':',
              Char.ofNat 34] ++
            (content.data ++ [Char.ofNat 34, '\x7d'])))) := by
  unfold contentRequest
  simp only [String.data_append, List.append_assoc]
  rfl

/-- C10 (amended): for topics that hold no double quote, among them `advice`, the
only topic that `dummyPublisher` hands to `sendContent`, and for all contents,
equal bodies come from equal topics and equal contents. -/
theorem contentRequest_body_injective (mac1 mac2 : String → String → List Byte)
    (url1 url2 secret1 secret2 t1 t2 c1 c2 : String)
    (h1 : Char.ofNat 34 ∉ t1.data) (h2 : Char.ofNat 34 ∉ t2.data)
    (h : (contentRequest mac1 url1 secret1 t1 c1).body =
      (contentRequest mac2 url2 secret2 t2 c2).body) :
    t1 = t2 ∧ c1 = c2 := by
  have hd := congrArg String.data h
  rw [contentRequest_body_data, contentRequest_body_data] at hd
  have hd2 := List.append_cancel_left hd
  obtain ⟨ht, hrest⟩ := append_cons_inj _ _ _ _ _ h1 h2 hd2
  have hc := List.append_cancel_right (List.append_cancel_left hrest)
  exact ⟨String.ext ht, String.ext hc⟩

/-- C10, witness: the bodies for topic `advice` with contents `x"y` and `x"y`
are equal, and so are the contents; the topic holds no double quote. -/
theorem contentRequest_body_injective_witness :
    Char.ofNat 34 ∉ "advice".data ∧ ("advice" = "advice" ∧ "x\"y" = "x\"y") :=
  ⟨by decide,
    contentRequest_body_injective (fun _ _ => []) (fun _ _ => [0]) "http://a" "http://b" "k" ""
      "advice" "advice" "x\"y" "x\"y" (by decide) (by decide) rfl⟩

/-- C10, counterexample: the topic `a", "content":"b` with content `c` and the
topic `a` with content `b", "content":"c` are different pairs with the same
serialized body. -/
theorem contentRequest_body_collision :
    (contentRequest (fun _ _ => []) "http://a" "" "a\", \"content\":\"b" "c").body =
      (contentRequest (fun _ _ => []) "http://a" "" "a" "b\", \"content\":\"c").body ∧
    (contentRequest (fun _ _ => []) "http://a" "" "a" "b\", \"content\":\"c").body =
      "\x7b\"topic\":\"a\", \"content\":\"b\", \"content\":\"c\"\x7d" ∧
    ¬ ("a\", \"content\":\"b" = "a" ∧ "c" = "b\", \"content\":\"c") := by
  refine ⟨rfl, rfl, by decide⟩

end SubHub
